import Mathlib

/-!
Shallow embedding of the vivliostyle-cli build pipeline (src/build.ts):
configuration merging, entry/theme resolution, manifest generation,
page-size parsing and the PDF render orchestration, modelled as pure
Lean functions over explicit environments.  JavaScript strings that may
be `undefined` are modelled as `Option String`, with the JS truthiness
of `||`-chains made explicit.  Node path functions (external library
calls) are modelled as simple POSIX-style string operations, which is
sufficient for the properties verified here (no `..` normalization is
claimed).  String primitives are implemented by structural recursion on
the character list so that every definition reduces in the kernel.
-/

namespace Vivlio

/-! ## String primitives (structural, kernel-reducible) -/

/-- JS `String.prototype.split` with a single-character separator. -/
def splitChar (sep : Char) : List Char → List (List Char)
  | [] => [[]]
  | c :: cs =>
    let r := splitChar sep cs
    if c = sep then [] :: r
    else
      match r with
      | [] => [[c]]
      | x :: xs => (c :: x) :: xs

/-- `s.split(sep)` on Lean strings. -/
def splitStr (sep : Char) (s : String) : List String :=
  (splitChar sep s.data).map (fun l => ⟨l⟩)

/-- `s.endsWith(suffix)` (JS) / `path.endsWith` in the source. -/
def strEndsWith (s suf : String) : Bool :=
  s.data.drop (s.data.length - suf.data.length) = suf.data ∧
    suf.data.length ≤ s.data.length

/-- `s.startsWith(p)` used to model the `/^https?:\/\//` test. -/
def strStartsWith (s p : String) : Bool :=
  s.data.take p.data.length = p.data

/-- `s.replace(/\//g, '-')`: global single-character replacement. -/
def replaceSlashDash (s : String) : String :=
  ⟨s.data.map (fun c => if c = '/' then '-' else c)⟩

/-- `path.basename`: final non-empty path segment. -/
def basename (p : String) : String :=
  match (splitStr '/' p).filter (fun seg => seg ≠ "") with
  | [] => p
  | x :: xs => (x :: xs).getLast (List.cons_ne_nil x xs)

/-- `path.dirname` (simplified: everything before the last slash). -/
def dirname (p : String) : String :=
  match (splitStr '/' p).dropLast with
  | [] => "."
  | [""] => "/"
  | parts => String.intercalate "/" parts

/-- `path.join(a, b)` (simplified concatenation). -/
def pathJoin (a b : String) : String := a ++ "/" ++ b

/-- `path.resolve(base, p)`: `p` if absolute, otherwise joined to `base`. -/
def pathResolve (base p : String) : String :=
  if strStartsWith p "/" then p else base ++ "/" ++ p

/-- `path.relative(base, p)` (simplified: strips a `base ++ "/"` front). -/
def pathRelative (base p : String) : String :=
  if strStartsWith p (base ++ "/") then ⟨p.data.drop (base.data.length + 1)⟩ else p

/-- `targetPath.replace(/\.md$/, '.html')`. -/
def replaceMdExt (s : String) : String :=
  if strEndsWith s ".md" then ⟨s.data.take (s.data.length - 3)⟩ ++ ".html" else s

/-! ## JS truthiness -/

/-- Truthiness of a possibly-`undefined` JS string (`undefined` and `""`
are falsy). -/
def truthyS : Option String → Bool
  | none => false
  | some s => s ≠ ""

/-- JS `a || b` on possibly-undefined strings. -/
def jsOrS (a b : Option String) : Option String :=
  if truthyS a then a else b

/-- JS `a || b` on possibly-undefined objects (any object is truthy). -/
def jsOrO {α : Type} (a b : Option α) : Option α :=
  match a with
  | some x => some x
  | none => b

/-! ## Error taxonomy

The source throws plain `Error`s; the spec names them.  Each constructor
corresponds to one throw site of the source (plus `configError`, which the
spec names but the source never throws, kept so the claim is statable). -/

inductive BuildError where
  | configError
  | noEntry
  | themeError (msg : String)
  | sizeParse (msg : String)
  | renderTimeout
deriving DecidableEq, Repr

/-! ## parsePageSize (build.ts lines 355-369) -/

inductive PageSize where
  | wh (width height : String)
  | format (f : String)
deriving DecidableEq, Repr

/-- `parsePageSize` of the source: split the (truthy) string on commas,
error when more than two components, otherwise a width/height pair when
both components are non-empty, else a named format falling back to
`"Letter"`. -/
def parsePageSize (size : String) : Except BuildError PageSize :=
  match (if size = "" then [] else splitStr ',' size) with
  | [] => .ok (.format "Letter")
  | [w] => .ok (.format (if w ≠ "" then w else "Letter"))
  | [w, h] =>
    if w ≠ "" ∧ h ≠ "" then .ok (.wh w h)
    else .ok (.format (if w ≠ "" then w else "Letter"))
  | _ => .error (.sizeParse ("Cannot parse size: " ++ size))

/-! ## Configuration data model (build.ts lines 43-103) -/

/-- A normalized entry: `{path, title?, theme?}`. -/
structure Entry where
  path : String
  title : Option String := none
  theme : Option String := none
deriving DecidableEq, Repr

/-- A raw entry as authored: a bare string or an `Entry` object. -/
inductive RawEntry where
  | str (s : String)
  | obj (e : Entry)
deriving DecidableEq, Repr

/-- The `entry` field of a config file: `string | string[] | Entry | Entry[]`
(and possibly absent at runtime). -/
inductive EntryField where
  | single (e : RawEntry)
  | arr (l : List RawEntry)
  | absent
deriving DecidableEq, Repr

/-- `toc?: boolean | string`. -/
inductive TocValue where
  | b (b : Bool)
  | s (s : String)
deriving DecidableEq, Repr

/-- JS truthiness of a `boolean | string` value. -/
def truthyToc : TocValue → Bool
  | .b b => b
  | .s s => s ≠ ""

/-- JS truthiness of an optional `boolean | string` value. -/
def truthyTocOpt : Option TocValue → Bool
  | none => false
  | some t => truthyToc t

/-- `VivliostyleConfig` (the config file object). -/
structure VivliostyleConfig where
  title : Option String := none
  author : Option String := none
  language : Option String := none
  theme : Option String := none
  outDir : Option String := none
  outFile : Option String := none
  entry : EntryField := .absent
  entryContext : Option String := none
  toc : Option TocValue := none
  size : Option String := none
  pressReady : Option Bool := none
  timeout : Option Nat := none
deriving Repr

/-- `BuildCliFlags`.  Optional string flags are `Option String`; `size`
(`number | string`) is modelled by its string form. -/
structure BuildCliFlags where
  configPath : Option String := none
  input : Option String := none
  outFile : Option String := none
  rootDir : Option String := none
  theme : Option String := none
  size : Option String := none
  title : Option String := none
  language : Option String := none
  author : Option String := none
  pressReady : Bool := false
  verbose : Bool := false
  timeout : Nat := 0
  loadMode : String := ""
  sandbox : Bool := false
  executableChromium : Option String := none
deriving Repr

/-- Nearest-package descriptor (`pkgJson`): only the fields the merge
reads. -/
structure PkgJson where
  name : Option String := none
  author : Option String := none
deriving Repr

/-- The effective configuration computed by the merge section of `build`
(lines 414-433). -/
structure MergedConfig where
  title : Option String
  author : Option String
  language : String
  size : Option String
  toc : TocValue
  pressReady : Bool
  verbose : Bool
  timeout : Nat
  sandbox : Bool
  loadMode : String
deriving DecidableEq, Repr

/-- The `// merge config` block of `build`, one field per `||`-chain of
the source:
`title = cliFlags.title || config?.title || pkgJson?.name`,
`author = cliFlags.author || config?.author || pkgJson?.author`,
`language = config?.language || 'en'`,
`size = cliFlags.size || config?.size`,
`toc = config?.toc || true`,
`pressReady = cliFlags.pressReady || config?.pressReady || false`,
`verbose = cliFlags.verbose || false`,
`timeout = cliFlags.timeout || config?.timeout || 3000`,
`sandbox = cliFlags.sandbox || true`,
`loadMode = cliFlags.loadMode || 'book'`. -/
def mergeConfig (cli : BuildCliFlags) (config : Option VivliostyleConfig)
    (pkgJson : Option PkgJson) : MergedConfig :=
  { title := jsOrS cli.title (jsOrS (config.bind (·.title)) (pkgJson.bind (·.name)))
    author := jsOrS cli.author (jsOrS (config.bind (·.author)) (pkgJson.bind (·.author)))
    language := match jsOrS (config.bind (·.language)) (some "en") with
      | some s => s
      | none => "en"
    size := jsOrS cli.size (config.bind (·.size))
    toc := match config.bind (·.toc) with
      | some t => if truthyToc t then t else .b true
      | none => .b true
    pressReady := if cli.pressReady then true
      else match config.bind (·.pressReady) with
        | some b => if b then true else false
        | none => false
    verbose := if cli.verbose then true else false
    timeout := if cli.timeout ≠ 0 then cli.timeout
      else match config.bind (·.timeout) with
        | some n => if n ≠ 0 then n else 3000
        | none => 3000
    sandbox := if cli.sandbox then cli.sandbox else true
    loadMode := if cli.loadMode ≠ "" then cli.loadMode else "book" }

/-- First truthy value of a JS `||` chain; when every candidate is falsy
the chain evaluates to its last value. -/
def firstTruthyS (l : List (Option String)) : Option String :=
  match l.find? (fun o => truthyS o) with
  | some o => o
  | none => l.getLastD none

/-! ## Manifest generation (generateManifest, lines 182-212) -/

structure ReadingOrderItem where
  href : String
  type : String
  title : Option String
deriving DecidableEq, Repr

structure Resource where
  href : String
  rel : String
  type : String
  title : String
deriving DecidableEq, Repr

structure ManifestMetadata where
  atType : String
  title : Option String
  author : Option String
  language : Option String
  modified : String
deriving DecidableEq, Repr

structure Manifest where
  context : String
  metadata : ManifestMetadata
  links : List String
  readingOrder : List ReadingOrderItem
  resources : List Resource
deriving DecidableEq, Repr

/-- `ManifestOption` (lines 96-103). -/
structure ManifestOption where
  title : Option String := none
  author : Option String := none
  language : Option String := none
  modified : String
  entries : List Entry
  toc : Option TocValue := none
deriving Repr

/-- The resource record pushed when `options.toc` is truthy. -/
def tocResource : Resource :=
  { href := "toc.html", rel := "contents", type := "text/html",
    title := "Table of Contents" }

/-- `generateManifest` (without the final `fs.writeFileSync`): the object
serialized to `manifest.json`. -/
def generateManifest (options : ManifestOption) : Manifest :=
  { context := "https://readium.org/webpub-manifest/context.jsonld"
    metadata :=
      { atType := "http://schema.org/Book"
        title := options.title
        author := options.author
        language := options.language
        modified := options.modified }
    links := []
    readingOrder := options.entries.map (fun entry =>
      { href := entry.path, type := "text/html", title := entry.title })
    resources := if truthyTocOpt options.toc then [tocResource] else [] }

/-! ## JSON serialization of the manifest

`JSON.stringify` keeps every own property of the object literal except
those whose value is `undefined`; in particular an empty `resources`
array still appears in the written file. -/

inductive MiniJson where
  | str (s : String)
  | arr (l : List MiniJson)
  | obj (l : List (String × MiniJson))

/-- A key that is dropped by `JSON.stringify` when its value is
`undefined`. -/
def optField (k : String) : Option String → List (String × MiniJson)
  | some s => [(k, .str s)]
  | none => []

def readingOrderItemJson (it : ReadingOrderItem) : MiniJson :=
  .obj ([("href", .str it.href), ("type", .str it.type)] ++ optField "title" it.title)

def resourceJson (r : Resource) : MiniJson :=
  .obj [("href", .str r.href), ("rel", .str r.rel), ("type", .str r.type),
        ("title", .str r.title)]

def metadataJson (m : ManifestMetadata) : MiniJson :=
  .obj ([("@type", .str m.atType)] ++ optField "title" m.title ++
        optField "author" m.author ++ optField "language" m.language ++
        [("modified", .str m.modified)])

/-- The top-level key/value list of the serialized manifest. -/
def manifestFields (m : Manifest) : List (String × MiniJson) :=
  [("@context", .str m.context),
   ("metadata", metadataJson m.metadata),
   ("links", .arr []),
   ("readingOrder", .arr (m.readingOrder.map readingOrderItemJson)),
   ("resources", .arr (m.resources.map resourceJson))]

/-- Association-list lookup for serialized JSON objects. -/
def lookupKey : List (String × MiniJson) → String → Option MiniJson
  | [], _ => none
  | (k, v) :: rest, key => if k = key then some v else lookupKey rest key

/-! ## Theme resolution (parseTheme, lines 124-168) -/

inductive ThemeType where
  | path
  | uri
deriving DecidableEq, Repr

structure ParsedTheme where
  type : ThemeType
  name : String
  location : String
deriving DecidableEq, Repr

/-- The fields of a theme package's `package.json` that `parseTheme`
reads. -/
structure PkgDesc where
  name : String := ""
  vivliostyleThemeStyle : Option String := none
  vivliostyleThemeStylesheet : Option String := none
  style : Option String := none
  main : Option String := none
deriving Repr

/-- External collaborators of entry/theme resolution: `resolve-pkg`,
reading a package descriptor, and the metadata discovered inside a
source document (front-matter `title`/`theme` for Markdown, first
`<title>` text / first stylesheet `link` href for HTML). -/
structure DocMeta where
  title : Option String := none
  themeRef : Option String := none
deriving Repr

structure BuildEnv where
  resolvePkg : String → Option String
  pkgDescAt : String → PkgDesc
  meta : String → DocMeta

/-- `parseTheme`: `undefined` for a non-string, a `uri` record for an
`https?://` reference, otherwise package resolution — a bare `.css`
root directly, else the descriptor's
`vivliostyle.theme.style || vivliostyle.theme.stylesheet || style || main`
chain, which must be a truthy `.css` reference. -/
def parseTheme (env : BuildEnv) : Option String → Except BuildError (Option ParsedTheme)
  | none => .ok none
  | some themeString =>
    if strStartsWith themeString "http://" ∨ strStartsWith themeString "https://" then
      .ok (some { type := .uri, name := basename themeString, location := themeString })
    else
      match env.resolvePkg themeString with
      | none => .error (.themeError ("package not found: " ++ themeString))
      | some pkgRoot =>
        if strEndsWith pkgRoot ".css" then
          .ok (some { type := .path, name := basename pkgRoot, location := pkgRoot })
        else
          let packageJson := env.pkgDescAt pkgRoot
          let maybeCSS := jsOrS packageJson.vivliostyleThemeStyle
            (jsOrS packageJson.vivliostyleThemeStylesheet
              (jsOrS packageJson.style packageJson.main))
          match maybeCSS with
          | none => .error (.themeError "invalid css file: undefined")
          | some css =>
            if css = "" ∨ ¬ strEndsWith css ".css" then
              .error (.themeError ("invalid css file: " ++ css))
            else
              .ok (some { type := .path
                          name := replaceSlashDash packageJson.name ++ ".css"
                          location := pathResolve pkgRoot css })

/-! ## Entry parsing (normalizeEnry / parseMetadata / parseEntry,
lines 443-508) -/

inductive DocType where
  | markdown
  | html
deriving DecidableEq, Repr

structure PathPair where
  path : String
  dir : String
deriving DecidableEq, Repr

structure ParsedEntry where
  type : DocType
  title : Option String
  theme : Option ParsedTheme
  source : PathPair
  target : PathPair
deriving DecidableEq, Repr

/-- `normalizeEnry` (sic): a bare string becomes `{path}`. -/
def normalizeEnry : RawEntry → Entry
  | .str s => { path := s }
  | .obj e => e

/-- `type = sourcePath.endsWith('.html') ? 'html' : 'markdown'`. -/
def docTypeOf (sourcePath : String) : DocType :=
  if strEndsWith sourcePath ".html" then .html else .markdown

/-- `parseMetadata`: front-matter title/theme for Markdown; for HTML the
first `<title>`'s text (`textContent || undefined`, so an empty title
becomes `undefined`) and the first stylesheet link's href. -/
def parseMetadata (env : BuildEnv) (type : DocType) (sourcePath : String) :
    Except BuildError (Option String × Option ParsedTheme) :=
  let m := env.meta sourcePath
  match type with
  | .markdown =>
    match parseTheme env m.themeRef with
    | .error e => .error e
    | .ok theme => .ok (m.title, theme)
  | .html =>
    match parseTheme env m.themeRef with
    | .error e => .error e
    | .ok theme => .ok (if truthyS m.title then m.title else none, theme)

/-- The accumulation step on the build-level `themes` array inside
`parseEntry`:
`if (parsedTheme && themes.every((t) => t.name !== parsedTheme.name)) themes.push(parsedTheme)`. -/
def addTheme (themes : List ParsedTheme) : Option ParsedTheme → List ParsedTheme
  | none => themes
  | some t => if themes.all (fun u => u.name ≠ t.name) then themes ++ [t] else themes

/-- The pieces of the surrounding `build` closure that `parseEntry`
reads. -/
structure BuildCtx where
  contextDir : String
  artifactDir : String
  configTitle : Option String := none
deriving Repr

/-- `parseEntry`, with the mutable `themes` array passed explicitly:
resolves source/target paths, classifies the document type by the
`.html` suffix, reads in-document metadata, and resolves title and theme
by the `||`-chains
`entry.title || title || config?.title` and
`parseTheme(entry.theme) || theme || themes[0]`. -/
def parseEntry (env : BuildEnv) (ctx : BuildCtx) (themes : List ParsedTheme)
    (entry : Entry) : Except BuildError (ParsedEntry × List ParsedTheme) :=
  let sourcePath := pathResolve ctx.contextDir entry.path
  let sourceDir := dirname sourcePath
  let contextEntryPath := pathRelative ctx.contextDir sourcePath
  let targetPath := replaceMdExt (pathResolve ctx.artifactDir contextEntryPath)
  let targetDir := dirname targetPath
  let type := docTypeOf sourcePath
  match parseMetadata env type sourcePath with
  | .error e => .error e
  | .ok (title, theme) =>
    match parseTheme env entry.theme with
    | .error e => .error e
    | .ok entryTheme =>
      let parsedTheme := jsOrO entryTheme (jsOrO theme themes.head?)
      let themes' := addTheme themes parsedTheme
      .ok ({ type := type
             source := { path := sourcePath, dir := sourceDir }
             target := { path := targetPath, dir := targetDir }
             title := jsOrS entry.title (jsOrS title ctx.configTitle)
             theme := parsedTheme }, themes')

/-- `rawEntries.map(normalizeEnry).map(parseEntry)` with the `themes`
array threaded through (the source mutates it in entry order). -/
def parseEntriesGo (env : BuildEnv) (ctx : BuildCtx) :
    List Entry → List ParsedTheme → Except BuildError (List ParsedEntry × List ParsedTheme)
  | [], themes => .ok ([], themes)
  | e :: rest, themes =>
    match parseEntry env ctx themes e with
    | .error err => .error err
    | .ok (pe, themes') =>
      match parseEntriesGo env ctx rest themes' with
      | .error err => .error err
      | .ok (pes, themesFin) => .ok (pe :: pes, themesFin)

/-! ## Config collection and the build front-end (lines 396-512) -/

/-- The filesystem as seen by config collection. -/
structure FsEnv where
  pathExists : String → Bool
  configAt : String → Option VivliostyleConfig

/-- `collectVivliostyleConfig`: `undefined` when the path does not
exist, otherwise `require(configPath)`. -/
def collectVivliostyleConfig (fs : FsEnv) (configPath : String) :
    Option VivliostyleConfig :=
  if fs.pathExists configPath then fs.configAt configPath else none

/-- `configPath = cliFlags.configPath ? path.resolve(cwd, cliFlags.configPath) : path.join(cwd, 'vivliostyle.config.js')`. -/
def configPathOf (cwd : String) (cliConfigPath : Option String) : String :=
  if truthyS cliConfigPath then pathResolve cwd (cliConfigPath.getD "")
  else pathJoin cwd "vivliostyle.config.js"

/-- Config collection as performed by `build`. -/
def configStep (fs : FsEnv) (cwd : String) (cliConfigPath : Option String) :
    Option VivliostyleConfig :=
  collectVivliostyleConfig fs (configPathOf cwd cliConfigPath)

/-- `rawEntries`: the CLI input alone when truthy, otherwise the config's
entry field (an array as-is; a truthy single entry wrapped; else empty). -/
def rawEntries (cliInput : Option String) (config : Option VivliostyleConfig) :
    List RawEntry :=
  if truthyS cliInput then [.str (cliInput.getD "")]
  else
    match config with
    | none => []
    | some c =>
      match c.entry with
      | .arr l => l
      | .single e =>
        match e with
        | .str s => if s ≠ "" then [.str s] else []
        | .obj o => [.obj o]
      | .absent => []

/-- The front half of `build`: collect the config, derive the directories
and root theme, parse the entries, and fail with `'no entry found'` when
the parsed entry list is empty.  Returns the parsed entries together
with the final theme set. -/
def ctxPath (context : String) : Option String → Option String
  | none => none
  | some loc => if loc ≠ "" then some (pathResolve context loc) else some ""

def buildFrontend (fs : FsEnv) (env : BuildEnv) (cwd : String)
    (cli : BuildCliFlags) : Except BuildError (List ParsedEntry × List ParsedTheme) :=
  let configPath := configPathOf cwd cli.configPath
  let config := collectVivliostyleConfig fs configPath
  let configBaseDir := if config.isSome then dirname configPath else cwd
  let distDir := pathResolve cwd
    ((jsOrS (ctxPath configBaseDir (config.bind (·.outDir)))
      (some ".vivliostyle")).getD ".vivliostyle")
  let artifactDir := pathJoin distDir "artifacts"
  let contextDir := pathResolve cwd
    ((jsOrS cli.rootDir (jsOrS (ctxPath configBaseDir (config.bind (·.entryContext)))
      (some "."))).getD ".")
  let theme := jsOrS cli.theme (config.bind (·.theme))
  match parseTheme env theme with
  | .error e => .error e
  | .ok rootTheme =>
    let themes := match rootTheme with
      | some t => [t]
      | none => []
    let ctx : BuildCtx := { contextDir := contextDir, artifactDir := artifactDir,
                            configTitle := config.bind (·.title) }
    let entries := (rawEntries cli.input config).map normalizeEnry
    match parseEntriesGo env ctx entries themes with
    | .error e => .error e
    | .ok (pes, themesFin) =>
      if pes.length = 0 then .error .noEntry else .ok (pes, themesFin)

/-! ## Staging of one entry (build, lines 521-540) -/

inductive StageAction where
  | copy (source target : String)
  | transform (source target : String) (stylesheet : Option String)
deriving DecidableEq, Repr

/-- The per-entry staging step: HTML entries are copied verbatim;
Markdown entries are run through the VFM transform with a stylesheet
reference (relative path into the staging root for a `path` theme, the
raw location for a `uri` theme). -/
def stageEntry (distDir : String) (entry : ParsedEntry) : StageAction :=
  match entry.type with
  | .html => .copy entry.source.path entry.target.path
  | .markdown =>
    let stylesheet :=
      match entry.theme with
      | some t =>
        match t.type with
        | .path => some (pathRelative entry.target.dir (pathJoin distDir t.name))
        | .uri => some t.location
      | none => none
    .transform entry.source.path entry.target.path stylesheet

/-! ## Render orchestration (generatePDF / loadTOC, lines 232-353,
371-394)

The browser session is modelled as a trace of the operations the
orchestrator performs, in program order, together with the explicit
state the claims are about (browser launched/closed, PDF saved).  The
non-deterministic environment supplies the outcomes of the two waits:
the stream of `done` events delivered to the TOC listener, and whether
`coreViewer.readyState` reaches `'complete'` within the configured
timeout. -/

/-- A `done` event payload; `a` is its action tag. -/
structure Payload where
  a : String
deriving DecidableEq, Repr

inductive ViewerOp where
  | addListener
  | removeListener
  | showTOC (visible : Bool)
  | resolveTOC
deriving DecidableEq, Repr

inductive BrowserOp where
  | launch
  | newPage
  | goto
  | waitViewer
  | getMetadata
  | viewer (op : ViewerOp)
  | emulatePrint
  | waitReady
  | capture
  | closeBrowser
  | savePdf (path : String)
deriving DecidableEq, Repr

/-- The listener body of `loadTOC` run over the incoming event stream:
a payload whose action tag is not `'toc'` is ignored; the first `'toc'`
payload removes the listener, hides the TOC, and resolves the promise.
`none` means the promise never resolves. -/
def loadTOCgo : List Payload → Option (List ViewerOp)
  | [] => none
  | p :: rest =>
    if p.a = "toc" then some [.removeListener, .showTOC false, .resolveTOC]
    else loadTOCgo rest

/-- The full viewer-operation trace of `loadTOC`: register the listener,
show the TOC, then the listener's operations once it fires. -/
def loadTOCtrace (events : List Payload) : Option (List ViewerOp) :=
  (loadTOCgo events).map (fun ops => [.addListener, .showTOC true] ++ ops)

/-- The arguments of `generatePDF` the model needs. -/
structure GenPDFArgs where
  outputPath : String
  size : Option String
  timeout : Nat
  pressReady : Bool
  sandbox : Bool
deriving Repr

/-- The environment of one render session. -/
structure GenPDFEnv where
  outputPathIsDir : Bool
  paginationCompletes : Bool
  tocEvents : List Payload
deriving Repr

structure GenPDFState where
  browserLaunched : Bool
  browserClosed : Bool
  savedPdf : Option String
  trace : List BrowserOp
deriving DecidableEq, Repr

inductive GenPDFOutcome where
  | hang (st : GenPDFState)
  | err (e : BuildError) (st : GenPDFState)
  | ok (outputFile : String) (st : GenPDFState)
deriving DecidableEq, Repr

/-- `outputFile`: an existing directory argument is redirected to
`<dir>/output.pdf`. -/
def outFileOf (args : GenPDFArgs) (env : GenPDFEnv) : String :=
  if env.outputPathIsDir then pathResolve args.outputPath "output.pdf"
  else args.outputPath

/-- `generatePDF`: parse the page size (when truthy), launch the
browser, navigate, read metadata, run the TOC show/await/hide round
trip, switch to print emulation, poll readiness under the timeout, then
capture, close the browser, and post-process/save.  `browser.close()`
appears only after a successful capture — there is no try/finally
around the session. -/
def generatePDFmodel (args : GenPDFArgs) (env : GenPDFEnv) : GenPDFOutcome :=
  let outputFile := outFileOf args env
  let sizeResult : Except BuildError (Option PageSize) :=
    if truthyS args.size then (parsePageSize (args.size.getD "")).map some
    else .ok none
  match sizeResult with
  | .error e => .err e { browserLaunched := false, browserClosed := false,
                         savedPdf := none, trace := [] }
  | .ok _outputSize =>
    let preTrace : List BrowserOp :=
      [.launch, .newPage, .goto, .waitViewer, .getMetadata]
    match loadTOCtrace env.tocEvents with
    | none =>
      .hang { browserLaunched := true, browserClosed := false, savedPdf := none,
              trace := preTrace ++ [.viewer .addListener, .viewer (.showTOC true)] }
    | some tocOps =>
      let trace1 := preTrace ++ tocOps.map .viewer ++ [.emulatePrint, .waitReady]
      if env.paginationCompletes then
        .ok outputFile
          { browserLaunched := true, browserClosed := true,
            savedPdf := some outputFile,
            trace := trace1 ++ [.capture, .closeBrowser, .savePdf outputFile] }
      else
        .err .renderTimeout
          { browserLaunched := true, browserClosed := false, savedPdf := none,
            trace := trace1 }

/-- The size argument, when truthy, parses successfully. -/
def sizeParses (args : GenPDFArgs) : Bool :=
  if truthyS args.size then
    match parsePageSize (args.size.getD "") with
    | .ok _ => true
    | .error _ => false
  else true

/-- The manifest entry list that `build` passes to `generateManifest`:
one `{title, path}` record per parsed entry, in entry order, with the
path taken relative to the staging directory. -/
def manifestEntriesOf (distDir : String) (entries : List ParsedEntry) : List Entry :=
  entries.map (fun entry =>
    { path := pathRelative distDir entry.target.path, title := entry.title })

/-- A filesystem on which no path exists. -/
def c3fs : FsEnv := { pathExists := fun _ => false, configAt := fun _ => none }

/-- A trivial resolution environment (no packages, no in-document
metadata). -/
def c3env : BuildEnv :=
  { resolvePkg := fun _ => none, pkgDescAt := fun _ => {}, meta := fun _ => {} }

/-- A filesystem with no files, for the C7 build-level run. -/
def c7fs : FsEnv := { pathExists := fun _ => false, configAt := fun _ => none }

/-- An environment in which the document `/ctx/one.md` declares a theme
in its front matter and no other document declares anything. -/
def c7env : BuildEnv :=
  { resolvePkg := fun _ => none
    pkgDescAt := fun _ => {}
    meta := fun p =>
      if p = "/ctx/one.md" then { themeRef := some "http://themes.example/t.css" }
      else {} }

def c7ctx : BuildCtx :=
  { contextDir := "/ctx", artifactDir := "/ctx/.vivliostyle/artifacts" }

/-- An environment with no packages and no in-document metadata at all. -/
def c7wEnv : BuildEnv :=
  { resolvePkg := fun _ => none, pkgDescAt := fun _ => {}, meta := fun _ => {} }

/-- Environments for the C10 witness. -/
def c10env : BuildEnv :=
  { resolvePkg := fun _ => none, pkgDescAt := fun _ => {}, meta := fun _ => {} }

def c10ctx : BuildCtx :=
  { contextDir := "/w", artifactDir := "/w/.vivliostyle/artifacts" }

/-! # Helper lemmas -/

/-- A three-element JS `||`-chain is the first truthy candidate (or the
last candidate when all are falsy). -/
theorem jsOrS_three_eq_firstTruthy (a b c : Option String) :
    jsOrS a (jsOrS b c) = firstTruthyS [a, b, c] := by
  by_cases ha : truthyS a <;> by_cases hb : truthyS b <;> by_cases hc : truthyS c <;>
    simp [jsOrS, firstTruthyS, List.find?, ha, hb, hc]

/-- A two-element JS `||`-chain is the first truthy candidate (or the
last candidate when both are falsy). -/
theorem jsOrS_two_eq_firstTruthy (a b : Option String) :
    jsOrS a b = firstTruthyS [a, b] := by
  by_cases ha : truthyS a <;> by_cases hb : truthyS b <;>
    simp [jsOrS, firstTruthyS, List.find?, ha, hb]

/-- `addTheme` preserves name-distinctness of the theme set. -/
theorem addTheme_names_nodup (ts : List ParsedTheme) (t? : Option ParsedTheme)
    (h : (ts.map (fun u => u.name)).Nodup) :
    ((addTheme ts t?).map (fun u => u.name)).Nodup := by
  cases t? with
  | none => exact h
  | some t =>
    simp only [addTheme]
    split
    · rename_i hall
      rw [List.map_append]
      simp only [List.map_cons, List.map_nil]
      rw [List.nodup_append]
      refine ⟨h, List.nodup_singleton _, ?_⟩
      intro x hx hx1
      simp only [List.mem_singleton] at hx1
      subst hx1
      rcases List.mem_map.mp hx with ⟨u, hu, hun⟩
      have := (List.all_eq_true.mp hall) u hu
      simp at this
      exact this hun
    · exact h

/-- On a name collision, `addTheme` leaves the set unchanged (the
first-resolved record is kept). -/
theorem addTheme_collision (ts : List ParsedTheme) (t : ParsedTheme)
    (h : ∃ u ∈ ts, u.name = t.name) : addTheme ts (some t) = ts := by
  simp only [addTheme]
  rcases h with ⟨u, hu, hn⟩
  rw [if_neg]
  intro hall
  have := (List.all_eq_true.mp hall) u hu
  simp at this
  exact this hn

/-- `parseEntry` changes the theme set only through `addTheme` with the
entry's resolved theme. -/
theorem parseEntry_themes (env : BuildEnv) (ctx : BuildCtx)
    (ts : List ParsedTheme) (e : Entry) (pe : ParsedEntry) (ts' : List ParsedTheme)
    (h : parseEntry env ctx ts e = .ok (pe, ts')) :
    ts' = addTheme ts pe.theme := by
  rcases hm : parseMetadata env (docTypeOf (pathResolve ctx.contextDir e.path))
      (pathResolve ctx.contextDir e.path) with e1 | ⟨title, theme⟩
  · simp only [parseEntry] at h
    rw [hm] at h
    exact absurd h (by simp)
  · rcases hp : parseTheme env e.theme with e2 | entryTheme
    · simp only [parseEntry] at h
      rw [hm, hp] at h
      exact absurd h (by simp)
    · simp only [parseEntry] at h
      rw [hm, hp] at h
      simp only [Except.ok.injEq, Prod.mk.injEq] at h
      obtain ⟨hpe, hts⟩ := h
      subst hpe
      exact hts.symm

/-! # Claims -/

/-- C4 counterexample: `parsePageSize` applied to the comma shorthand
`"210mm,"`, a pair with an empty second component, does not fail with a
`SizeParseError`; it falls back to `{format: "210mm"}`. -/
theorem c4_counterexample : parsePageSize "210mm," = .ok (.format "210mm") := rfl

/-- C4 (amended): `parsePageSize("210mm,297mm")` yields
`{width:"210mm", height:"297mm"}`; `parsePageSize("A4")` yields
`{format:"A4"}`; `parsePageSize("1,2,3")` fails with `SizeParseError`;
and in general the parse fails exactly when the (non-empty) input has
more than two comma-separated components — a pair with an empty
component is not an error but falls back to a format value. -/
theorem c4_theorem :
    parsePageSize "210mm,297mm" = .ok (.wh "210mm" "297mm") ∧
    parsePageSize "A4" = .ok (.format "A4") ∧
    parsePageSize "1,2,3" = .error (.sizeParse "Cannot parse size: 1,2,3") ∧
    (∀ s : String, (∃ msg, parsePageSize s = .error (.sizeParse msg)) ↔
      (s ≠ "" ∧ 2 < (splitStr ',' s).length)) := by
  refine ⟨rfl, rfl, rfl, ?_⟩
  intro s
  by_cases hs : s = ""
  · subst hs
    simp [parsePageSize]
  · constructor
    · rintro ⟨msg, hmsg⟩
      refine ⟨hs, ?_⟩
      rcases hl : splitStr ',' s with _ | ⟨w, _ | ⟨h2, _ | ⟨x, rest⟩⟩⟩ <;>
        simp only [parsePageSize, if_neg hs, hl] at hmsg ⊢
      · exact absurd hmsg (by simp)
      · exact absurd hmsg (by simp)
      · split at hmsg <;> exact absurd hmsg (by simp)
      · simp
    · rintro ⟨-, hlen⟩
      refine ⟨"Cannot parse size: " ++ s, ?_⟩
      rcases hl : splitStr ',' s with _ | ⟨w, _ | ⟨h2, _ | ⟨x, rest⟩⟩⟩ <;>
        rw [hl] at hlen <;> simp only [List.length] at hlen
      · omega
      · omega
      · omega
      · simp only [parsePageSize, if_neg hs, hl]

/-- C5: the `readingOrder` of the generated publication manifest has
exactly one item per entry and lists them in exactly the input entry
order (position `i` of the reading order is position `i` of the entry
list), and the entry list `build` passes to `generateManifest` is
itself the position-preserving image of the resolved entries. -/
theorem c5_theorem :
    ∀ (options : ManifestOption) (i : Nat) (distDir : String) (pes : List ParsedEntry),
    (generateManifest options).readingOrder.length = options.entries.length ∧
    (generateManifest options).readingOrder[i]? =
      (options.entries[i]?).map (fun entry =>
        { href := entry.path, type := "text/html", title := entry.title }) ∧
    (manifestEntriesOf distDir pes).length = pes.length ∧
    (manifestEntriesOf distDir pes)[i]? = (pes[i]?).map (fun entry =>
      { path := pathRelative distDir entry.target.path, title := entry.title }) := by
  intro options i distDir pes
  refine ⟨?_, ?_, ?_, ?_⟩
  · simp [generateManifest]
  · simp [generateManifest, List.getElem?_map]
  · simp [manifestEntriesOf]
  · simp [manifestEntriesOf, List.getElem?_map]

/-- C8 counterexample: with table-of-contents generation not requested
(`toc` falsy), the serialized manifest still carries a `resources` key
(as an empty array) — the `resources` array is not absent when no TOC
was requested. -/
theorem c8_counterexample :
    truthyTocOpt (some (.b false)) = false ∧
    lookupKey (manifestFields (generateManifest
      { modified := "2020-01-01T00:00:00Z"
        entries := [{ path := "a.html" }]
        toc := some (.b false) })) "resources" = some (.arr []) :=
  ⟨rfl, rfl⟩

/-- C8 (amended): the serialized manifest always contains the
`resources` key; its array contains the `toc.html` contents link
exactly when TOC generation was requested (and is empty otherwise, so
no entry referencing `toc.html` appears); moreover the effective
configuration computed by `build` (`config?.toc || true`) is always
truthy, so a build always requests the TOC. -/
theorem c8_theorem :
    ∀ (options : ManifestOption),
    lookupKey (manifestFields (generateManifest options)) "resources" =
      some (.arr ((generateManifest options).resources.map resourceJson)) ∧
    (tocResource ∈ (generateManifest options).resources ↔
      truthyTocOpt options.toc = true) ∧
    ((generateManifest options).resources = [] ↔ truthyTocOpt options.toc = false) ∧
    (∀ (cli : BuildCliFlags) (config : Option VivliostyleConfig) (pkgJson : Option PkgJson),
      truthyToc (mergeConfig cli config pkgJson).toc = true) := by
  intro options
  refine ⟨rfl, ?_, ?_, ?_⟩
  · by_cases ht : truthyTocOpt options.toc <;> simp [generateManifest, ht]
  · by_cases ht : truthyTocOpt options.toc <;> simp [generateManifest, ht]
  · intro cli config pkgJson
    simp only [mergeConfig]
    rcases h : config.bind (fun x => x.toc) with _ | t
    · simp [truthyToc]
    · cases t with
      | b b => cases b <;> simp [truthyToc]
      | s s => by_cases hs : s = "" <;> simp [truthyToc, hs]

/-- C2 counterexample: a CLI flag explicitly set to `false` does not
override the default — with `cliFlags.sandbox = false` the effective
configuration still has `sandbox = true` (`cliFlags.sandbox || true`),
so the claimed CLI-over-default precedence fails for falsy flag
values. -/
theorem c2_counterexample :
    ({ sandbox := false : BuildCliFlags }).sandbox = false ∧
    (mergeConfig { sandbox := false } none none).sandbox = true :=
  ⟨rfl, rfl⟩

/-- C2 (amended): every merged field is the first *truthy* value of its
fallback chain (CLI flag, then config-file value, then package
metadata, then built-in default), so a truthy CLI flag overrides, but a
falsy CLI flag (`false`, `0`, `""`) falls through to the next source;
`language` and `toc` have no CLI source at all, `sandbox` is
unconditionally `true`, and `toc` is always truthy. -/
theorem c2_theorem (cli : BuildCliFlags) (config : Option VivliostyleConfig)
    (pkgJson : Option PkgJson) :
    (mergeConfig cli config pkgJson).title =
      firstTruthyS [cli.title, config.bind (·.title), pkgJson.bind (·.name)] ∧
    (mergeConfig cli config pkgJson).author =
      firstTruthyS [cli.author, config.bind (·.author), pkgJson.bind (·.author)] ∧
    (mergeConfig cli config pkgJson).size =
      firstTruthyS [cli.size, config.bind (·.size)] ∧
    ((mergeConfig cli config pkgJson).language =
      if truthyS (config.bind (·.language)) then (config.bind (·.language)).getD ""
      else "en") ∧
    (mergeConfig cli config pkgJson).sandbox = true ∧
    ((mergeConfig cli config pkgJson).pressReady = true ↔
      (cli.pressReady = true ∨ config.bind (·.pressReady) = some true)) ∧
    ((mergeConfig cli config pkgJson).verbose = cli.verbose) ∧
    ((mergeConfig cli config pkgJson).loadMode =
      if cli.loadMode ≠ "" then cli.loadMode else "book") ∧
    (cli.timeout ≠ 0 → (mergeConfig cli config pkgJson).timeout = cli.timeout) ∧
    (∀ n, cli.timeout = 0 → config.bind (·.timeout) = some n → n ≠ 0 →
      (mergeConfig cli config pkgJson).timeout = n) ∧
    (cli.timeout = 0 → (config.bind (·.timeout)).getD 0 = 0 →
      (mergeConfig cli config pkgJson).timeout = 3000) ∧
    (∀ t, config.bind (·.toc) = some t → truthyToc t = true →
      (mergeConfig cli config pkgJson).toc = t) ∧
    (truthyTocOpt (config.bind (·.toc)) = false →
      (mergeConfig cli config pkgJson).toc = .b true) := by
  refine ⟨jsOrS_three_eq_firstTruthy .., jsOrS_three_eq_firstTruthy ..,
    jsOrS_two_eq_firstTruthy .., ?_, ?_, ?_, ?_, ?_, ?_, ?_, ?_, ?_, ?_⟩
  · rcases h : config.bind (fun x => x.language) with _ | l
    · simp [mergeConfig, h, jsOrS, truthyS]
    · by_cases hl : l = "" <;> simp [mergeConfig, h, jsOrS, truthyS, hl]
  · cases hcs : cli.sandbox <;> simp [mergeConfig, hcs]
  · cases hcp : cli.pressReady <;>
      rcases h : config.bind (fun x => x.pressReady) with _ | b <;>
      simp [mergeConfig, hcp, h]
  · cases hv : cli.verbose <;> simp [mergeConfig, hv]
  · by_cases hm : cli.loadMode = "" <;> simp [mergeConfig, hm]
  · intro h0
    simp [mergeConfig, h0]
  · intro n h0 hn hne
    simp [mergeConfig, h0, hn, hne]
  · intro h0 hd
    rcases h : config.bind (fun x => x.timeout) with _ | n
    · simp [mergeConfig, h, h0]
    · rw [h] at hd
      simp only [Option.getD_some] at hd
      simp [mergeConfig, h, h0, hd]
  · intro t ht htt
    simp [mergeConfig, ht, htt]
  · intro ht
    rcases h : config.bind (fun x => x.toc) with _ | t
    · simp [mergeConfig, h]
    · rw [h] at ht
      simp only [truthyTocOpt] at ht
      simp [mergeConfig, h, ht]

/-- C2 witness: at a concrete input with a nonzero CLI timeout, the
merged timeout is the CLI value. -/
theorem c2_witness : (mergeConfig { timeout := 5 } none none).timeout = 5 :=
  (c2_theorem { timeout := 5 } none none).2.2.2.2.2.2.2.2.1 (by decide)

/-- C6: the active theme set is deduplicated by `name`: starting from
any name-distinct initial set, processing any sequence of resolved
themes through the build's accumulation step keeps the names distinct;
when a theme whose name is already present arrives, the set is left
unchanged (the first-resolved record wins); and the theme set produced
by parsing any entry sequence is name-distinct. -/
theorem c6_theorem :
    (∀ (init : List ParsedTheme) (choices : List (Option ParsedTheme)),
      ((init.map (fun u => u.name)).Nodup) →
      (((choices.foldl addTheme init).map (fun u => u.name)).Nodup)) ∧
    (∀ (ts : List ParsedTheme) (t : ParsedTheme),
      (∃ u ∈ ts, u.name = t.name) → addTheme ts (some t) = ts) ∧
    (∀ (env : BuildEnv) (ctx : BuildCtx) (entries : List Entry)
      (init : List ParsedTheme) (pes : List ParsedEntry) (themesFin : List ParsedTheme),
      parseEntriesGo env ctx entries init = .ok (pes, themesFin) →
      ((init.map (fun u => u.name)).Nodup) →
      ((themesFin.map (fun u => u.name)).Nodup)) := by
  refine ⟨?_, addTheme_collision, ?_⟩
  · intro init choices h
    induction choices generalizing init with
    | nil => exact h
    | cons c rest ih =>
      exact ih (addTheme init c) (addTheme_names_nodup init c h)
  · intro env ctx entries
    induction entries with
    | nil =>
      intro init pes themesFin h hn
      simp only [parseEntriesGo, Except.ok.injEq, Prod.mk.injEq] at h
      rw [← h.2]
      exact hn
    | cons e rest ih =>
      intro init pes themesFin h hn
      rcases hp : parseEntry env ctx init e with e1 | ⟨pe, ts'⟩
      · simp only [parseEntriesGo, hp] at h
        exact absurd h (by simp)
      · simp only [parseEntriesGo, hp] at h
        rcases hr : parseEntriesGo env ctx rest ts' with e2 | ⟨pes2, tsFin2⟩
        · rw [hr] at h
          simp at h
        · rw [hr] at h
          simp only [Except.ok.injEq, Prod.mk.injEq] at h
          have hts' : ts' = addTheme init pe.theme :=
            parseEntry_themes env ctx init e pe ts' hp
          have hn' : ((ts'.map (fun u => u.name)).Nodup) := by
            rw [hts']
            exact addTheme_names_nodup init pe.theme hn
          have := ih ts' pes2 tsFin2 hr hn'
          rw [← h.2]
          exact this

/-- C1 counterexample: when pagination never completes within the
timeout, the build terminates with `RenderTimeoutError` and no PDF is
written, but the launched browser is `not` closed before the error
propagates — `browser.close()` sits on the success path only. -/
theorem c1_counterexample :
    ∃ st, generatePDFmodel
        { outputPath := "/out/book.pdf", size := none, timeout := 3000,
          pressReady := false, sandbox := true }
        { outputPathIsDir := false, paginationCompletes := false,
          tocEvents := [{ a := "toc" }] } = .err .renderTimeout st ∧
      st.savedPdf = none ∧ st.browserLaunched = true ∧ st.browserClosed = false :=
  ⟨_, rfl, rfl, rfl, rfl⟩

/-- C1 (amended): if pagination readiness never reaches completion
within the configured timeout, the build terminates with
`RenderTimeoutError` and no PDF file is written to the final output
path, but the browser process is closed only on the success path
(after capture), not on the timeout path — the launched browser is
left open when the error propagates. -/
theorem c1_theorem (args : GenPDFArgs) (env : GenPDFEnv)
    (hsize : sizeParses args = true)
    (htoc : loadTOCgo env.tocEvents ≠ none) :
    (env.paginationCompletes = false →
      ∃ st, generatePDFmodel args env = .err .renderTimeout st ∧
        st.browserLaunched = true ∧ st.browserClosed = false ∧ st.savedPdf = none) ∧
    (env.paginationCompletes = true →
      ∃ st, generatePDFmodel args env = .ok (outFileOf args env) st ∧
        st.browserClosed = true ∧ st.savedPdf = some (outFileOf args env)) := by
  rcases hops : loadTOCgo env.tocEvents with _ | ops
  · exact absurd hops htoc
  · by_cases hts : truthyS args.size
    · rcases hps : parsePageSize (args.size.getD "") with e | ps
      · exfalso
        simp only [sizeParses, if_pos hts, hps] at hsize
        exact absurd hsize (by decide)
      · refine ⟨fun hpc => ?_, fun hpc => ?_⟩
        · simp only [generatePDFmodel, hts, if_true, hps, Except.map,
            loadTOCtrace, hops, Option.map, hpc, Bool.false_eq_true, if_false]
          exact ⟨_, rfl, rfl, rfl, rfl⟩
        · simp only [generatePDFmodel, hts, if_true, hps, Except.map,
            loadTOCtrace, hops, Option.map, hpc]
          exact ⟨_, rfl, rfl, rfl⟩
    · refine ⟨fun hpc => ?_, fun hpc => ?_⟩
      · simp only [generatePDFmodel, hts, Bool.false_eq_true, if_false,
          loadTOCtrace, hops, Option.map, hpc]
        exact ⟨_, rfl, rfl, rfl, rfl⟩
      · simp only [generatePDFmodel, hts, Bool.false_eq_true, if_false,
          loadTOCtrace, hops, Option.map, hpc, if_true]
        exact ⟨_, rfl, rfl, rfl⟩

/-- C1 witness: a concrete timed-out session, obtained through the
general theorem. -/
theorem c1_witness :
    ∃ st, generatePDFmodel
        { outputPath := "/o.pdf", size := none, timeout := 100,
          pressReady := false, sandbox := true }
        { outputPathIsDir := false, paginationCompletes := false,
          tocEvents := [{ a := "toc" }] } = .err .renderTimeout st ∧
      st.browserLaunched = true ∧ st.browserClosed = false ∧ st.savedPdf = none :=
  (c1_theorem _ _ (by decide) (by decide)).1 rfl

/-- C9: the one-shot TOC completion listener resolves exactly when a
completion event tagged `'toc'` arrives; events carrying any other
action tag are ignored (they change nothing); on resolution the
listener's operations are exactly remove-listener, `showTOC(false)`,
resolve — so the TOC is hidden again before the promise resolves — and
in the full session trace the whole TOC round trip (ending in
`showTOC(false)` then resolve) happens strictly before the PDF
capture. -/
theorem c9_theorem :
    (∀ events : List Payload,
      (loadTOCgo events).isSome = events.any (fun p => p.a = "toc")) ∧
    (∀ (p : Payload) (rest : List Payload), p.a ≠ "toc" →
      loadTOCgo (p :: rest) = loadTOCgo rest) ∧
    (∀ events ops, loadTOCgo events = some ops →
      ops = [.removeListener, .showTOC false, .resolveTOC]) ∧
    (∀ (args : GenPDFArgs) (env : GenPDFEnv), sizeParses args = true →
      env.paginationCompletes = true → loadTOCgo env.tocEvents ≠ none →
      ∃ st, generatePDFmodel args env = .ok (outFileOf args env) st ∧
        st.trace = [.launch, .newPage, .goto, .waitViewer, .getMetadata,
          .viewer .addListener, .viewer (.showTOC true), .viewer .removeListener,
          .viewer (.showTOC false), .viewer .resolveTOC, .emulatePrint,
          .waitReady, .capture, .closeBrowser, .savePdf (outFileOf args env)]) := by
  have hfix : ∀ events ops, loadTOCgo events = some ops →
      ops = [.removeListener, .showTOC false, .resolveTOC] := by
    intro events
    induction events with
    | nil => intro ops h; exact absurd h (by simp [loadTOCgo])
    | cons p rest ih =>
      intro ops h
      by_cases hp : p.a = "toc"
      · rw [loadTOCgo, if_pos hp] at h
        exact (Option.some.injEq _ _ ▸ h).symm
      · rw [loadTOCgo, if_neg hp] at h
        exact ih ops h
  refine ⟨?_, ?_, hfix, ?_⟩
  · intro events
    induction events with
    | nil => simp [loadTOCgo]
    | cons p rest ih =>
      by_cases hp : p.a = "toc" <;> simp [loadTOCgo, hp, ih]
  · intro p rest hp
    rw [loadTOCgo, if_neg hp]
  · intro args env hsize hpc htoc
    rcases hops : loadTOCgo env.tocEvents with _ | ops
    · exact absurd hops htoc
    · have hops3 := hfix env.tocEvents ops hops
      subst hops3
      by_cases hts : truthyS args.size
      · rcases hps : parsePageSize (args.size.getD "") with e | ps
        · exfalso
          simp only [sizeParses, if_pos hts, hps] at hsize
          exact absurd hsize (by decide)
        · simp only [generatePDFmodel, hts, if_true, hps, Except.map,
            loadTOCtrace, hops, Option.map, hpc]
          exact ⟨_, rfl, rfl⟩
      · simp only [generatePDFmodel, hts, Bool.false_eq_true, if_false,
          loadTOCtrace, hops, Option.map, hpc, if_true]
        exact ⟨_, rfl, rfl⟩

/-- C9 witness: a concrete session whose event stream carries an
unrelated completion event before the `'toc'` one. -/
theorem c9_witness :
    ∃ st, generatePDFmodel
        { outputPath := "/x.pdf", size := none, timeout := 5,
          pressReady := false, sandbox := true }
        { outputPathIsDir := false, paginationCompletes := true,
          tocEvents := [{ a := "resize" }, { a := "toc" }] } =
      .ok (outFileOf
        { outputPath := "/x.pdf", size := none, timeout := 5,
          pressReady := false, sandbox := true }
        { outputPathIsDir := false, paginationCompletes := true,
          tocEvents := [{ a := "resize" }, { a := "toc" }] }) st ∧
      st.trace = [.launch, .newPage, .goto, .waitViewer, .getMetadata,
        .viewer .addListener, .viewer (.showTOC true), .viewer .removeListener,
        .viewer (.showTOC false), .viewer .resolveTOC, .emulatePrint,
        .waitReady, .capture, .closeBrowser,
        .savePdf (outFileOf
          { outputPath := "/x.pdf", size := none, timeout := 5,
            pressReady := false, sandbox := true }
          { outputPathIsDir := false, paginationCompletes := true,
            tocEvents := [{ a := "resize" }, { a := "toc" }] })] :=
  c9_theorem.2.2.2 _ _ (by decide) rfl (by decide)

/-- C3 counterexample: with a config-file path explicitly given on the
command line and no file at that path, config resolution yields
`undefined` and the build proceeds without a config (here to a
successful front-end, entries coming from the CLI input) — it does not
fail with `ConfigError`. -/
theorem c3_counterexample :
    c3fs.pathExists (configPathOf "/cwd" (some "missing.config.js")) = false ∧
    configStep c3fs "/cwd" (some "missing.config.js") = none ∧
    (∃ r, buildFrontend c3fs c3env "/cwd"
      { configPath := some "missing.config.js", input := some "manuscript.md" } =
        .ok r) :=
  ⟨rfl, rfl, ⟨_, rfl⟩⟩

/-- C3 (amended): when the config file does not exist — explicitly
specified or not — `collectVivliostyleConfig` returns `undefined` and
the build silently proceeds without a config; the only front-end
failure in that situation is `NoEntryError` (`'no entry found'`), which
is raised exactly when no CLI input is given either. -/
theorem c3_theorem (fs : FsEnv) (cwd : String) (cliPath : Option String)
    (h : fs.pathExists (configPathOf cwd cliPath) = false) :
    configStep fs cwd cliPath = none ∧
    (∀ (env : BuildEnv) (cli : BuildCliFlags), cli.configPath = cliPath →
      truthyS cli.input = false → cli.theme = none →
      buildFrontend fs env cwd cli = .error .noEntry) := by
  have hcs : configStep fs cwd cliPath = none := by
    simp [configStep, collectVivliostyleConfig, h]
  refine ⟨hcs, ?_⟩
  intro env cli hcfg hinput hthm
  rcases hi : cli.input with _ | s
  · simp [buildFrontend, hcfg, collectVivliostyleConfig, h, hthm, hi,
      jsOrS, truthyS, parseTheme, rawEntries, parseEntriesGo]
  · rw [hi] at hinput
    simp only [truthyS, Bool.not_eq_true, Bool.not_eq_false] at hinput
    have hs : s = "" := by
      by_contra hne
      simp [hne] at hinput
    subst hs
    simp [buildFrontend, hcfg, collectVivliostyleConfig, h, hthm, hi,
      jsOrS, truthyS, parseTheme, rawEntries, parseEntriesGo]

/-- C3 witness: a concrete missing explicit config path with no CLI
input ends in `NoEntryError`, not `ConfigError`. -/
theorem c3_witness :
    configStep c3fs "/w" (some "gone.config.js") = none ∧
    buildFrontend c3fs c3env "/w" { configPath := some "gone.config.js" } =
      .error .noEntry :=
  ⟨(c3_theorem c3fs "/w" (some "gone.config.js") rfl).1,
   (c3_theorem c3fs "/w" (some "gone.config.js") rfl).2 c3env
     { configPath := some "gone.config.js" } rfl rfl rfl⟩

/-- C7 counterexample: entry two has no per-entry theme and no theme in
its own document, and no root-level theme is configured — yet it
receives the theme discovered in entry one's document (the fallback is
`themes[0]`, the first element of the accumulated theme set, not the
root theme).  Moreover at the build level the per-entry title fallback
is the config-file title only: with a CLI title supplied and no config,
an entry with no other title source resolves to no title at all
(`entry.title || title || config?.title` never consults the CLI
flag). -/
theorem c7_counterexample :
    ((c7env.meta "/ctx/two.md").themeRef = none ∧
      (∃ pes ts, parseEntriesGo c7env c7ctx
          [{ path := "one.md" }, { path := "two.md" }] [] = .ok (pes, ts) ∧
        (pes[1]?).map (fun pe => pe.theme) =
          some (some { type := .uri, name := "t.css",
                       location := "http://themes.example/t.css" }))) ∧
    (∃ pes ts, buildFrontend c7fs c7env "/cwd"
        { input := some "a.md", title := some "CLI Title" } = .ok (pes, ts) ∧
      (pes[0]?).map (fun pe => pe.title) = some none) :=
  ⟨⟨rfl, ⟨_, _, rfl, rfl⟩⟩, ⟨_, _, rfl, rfl⟩⟩

/-- C7 (amended): for every entry the resolved title and theme obey the
precedence: per-entry override first, then the value discovered inside
the source document, then — for the theme — the first element of the
accumulated theme set (`themes[0]`: the root-level theme when one is
configured, otherwise the first theme resolved by an earlier entry),
and — for the title — the config-file title (the CLI title is not
consulted per entry). -/
theorem c7_theorem (env : BuildEnv) (ctx : BuildCtx) (ts : List ParsedTheme)
    (e : Entry) (pe : ParsedEntry) (ts' : List ParsedTheme)
    (h : parseEntry env ctx ts e = .ok (pe, ts')) :
    ∀ dTitle dTheme entryTheme,
      parseMetadata env (docTypeOf (pathResolve ctx.contextDir e.path))
        (pathResolve ctx.contextDir e.path) = .ok (dTitle, dTheme) →
      parseTheme env e.theme = .ok entryTheme →
      (pe.theme = jsOrO entryTheme (jsOrO dTheme ts.head?) ∧
       (∀ t, entryTheme = some t → pe.theme = some t) ∧
       (entryTheme = none → dTheme ≠ none → pe.theme = dTheme) ∧
       (entryTheme = none → dTheme = none → pe.theme = ts.head?) ∧
       pe.title = jsOrS e.title (jsOrS dTitle ctx.configTitle) ∧
       (truthyS e.title = true → pe.title = e.title) ∧
       (truthyS e.title = false → truthyS dTitle = true → pe.title = dTitle) ∧
       (truthyS e.title = false → truthyS dTitle = false →
         pe.title = ctx.configTitle)) := by
  intro dTitle dTheme entryTheme hm hp
  simp only [parseEntry] at h
  rw [hm, hp] at h
  simp only [Except.ok.injEq, Prod.mk.injEq] at h
  obtain ⟨hpe, -⟩ := h
  subst hpe
  refine ⟨rfl, ?_, ?_, ?_, rfl, ?_, ?_, ?_⟩
  · rintro t rfl
    rfl
  · rintro rfl hne
    cases dTheme with
    | none => exact absurd rfl hne
    | some t => rfl
  · rintro rfl rfl
    rfl
  · intro ht
    simp [jsOrS, ht]
  · intro ht hd
    simp [jsOrS, ht, hd]
  · intro ht hd
    simp [jsOrS, ht, hd]

/-- C7 witness: a per-entry theme overrides everything else at a
concrete input. -/
theorem c7_witness :
    ∃ pe ts', parseEntry c7wEnv c7ctx []
        { path := "a.md", theme := some "http://x/s.css" } = .ok (pe, ts') ∧
      pe.theme = some { type := .uri, name := "s.css", location := "http://x/s.css" } :=
  ⟨_, _, rfl,
    ((c7_theorem c7wEnv c7ctx [] { path := "a.md", theme := some "http://x/s.css" }
        _ _ rfl) none none
      (some { type := .uri, name := "s.css", location := "http://x/s.css" })
      rfl rfl).2.1 _ rfl⟩

/-- C10: the document type of every entry is decided solely by the
resolved source path's suffix — `.html` means `html`, anything else
(including `.htm` and `.txt`) means `markdown` — and staging copies an
HTML entry's file verbatim to the target path while every markdown
entry goes through the Markdown transform with a stylesheet option. -/
theorem c10_theorem :
    docTypeOf "/w/chapter.html" = .html ∧
    docTypeOf "/w/chapter.htm" = .markdown ∧
    docTypeOf "/w/chapter.txt" = .markdown ∧
    docTypeOf "/w/chapter.md" = .markdown ∧
    (∀ p, docTypeOf p = .html ↔ strEndsWith p ".html" = true) ∧
    (∀ (env : BuildEnv) (ctx : BuildCtx) (ts : List ParsedTheme) (e : Entry)
      (pe : ParsedEntry) (ts' : List ParsedTheme) (distDir : String),
      parseEntry env ctx ts e = .ok (pe, ts') →
      pe.source.path = pathResolve ctx.contextDir e.path ∧
      pe.type = docTypeOf pe.source.path ∧
      (pe.type = .html → stageEntry distDir pe = .copy pe.source.path pe.target.path) ∧
      (pe.type = .markdown → ∃ css, stageEntry distDir pe =
        .transform pe.source.path pe.target.path css)) := by
  refine ⟨rfl, rfl, rfl, rfl, ?_, ?_⟩
  · intro p
    simp only [docTypeOf]
    by_cases hp : strEndsWith p ".html" = true <;> simp [hp]
  · intro env ctx ts e pe ts' distDir h
    rcases hm : parseMetadata env (docTypeOf (pathResolve ctx.contextDir e.path))
        (pathResolve ctx.contextDir e.path) with e1 | ⟨title, theme⟩
    · simp only [parseEntry] at h
      rw [hm] at h
      exact absurd h (by simp)
    · rcases hp : parseTheme env e.theme with e2 | entryTheme
      · simp only [parseEntry] at h
        rw [hm, hp] at h
        exact absurd h (by simp)
      · simp only [parseEntry] at h
        rw [hm, hp] at h
        simp only [Except.ok.injEq, Prod.mk.injEq] at h
        obtain ⟨hpe, -⟩ := h
        subst hpe
        refine ⟨rfl, rfl, ?_, ?_⟩
        · intro htype
          have htype2 : docTypeOf (pathResolve ctx.contextDir e.path) = .html := htype
          simp only [stageEntry, htype2]
        · intro htype
          have htype2 : docTypeOf (pathResolve ctx.contextDir e.path) = .markdown := htype
          exact ⟨_, by simp only [stageEntry, htype2]; rfl⟩

/-- C10 witness: a concrete Markdown entry is staged through the
transform. -/
theorem c10_witness :
    ∃ pe ts' css,
      parseEntry c10env c10ctx [] { path := "chapter.md" } = .ok (pe, ts') ∧
      stageEntry "/w/.vivliostyle" pe =
        .transform pe.source.path pe.target.path css := by
  obtain ⟨-, -, -, h4⟩ :=
    c10_theorem.2.2.2.2.2 c10env c10ctx [] { path := "chapter.md" } _ _
      "/w/.vivliostyle" rfl
  obtain ⟨css, hcss⟩ := h4 rfl
  exact ⟨_, _, css, rfl, hcss⟩

/-- C6 witness: two themes with the same name collapse to the
first-resolved record. -/
theorem c6_witness :
    (([some { type := .uri, name := "t.css", location := "http://a/t.css" },
       some { type := .uri, name := "t.css", location := "http://b/t.css" }] :
        List (Option ParsedTheme)).foldl addTheme [] |>.map
          (fun u => u.name)).Nodup :=
  c6_theorem.1 []
    [some { type := .uri, name := "t.css", location := "http://a/t.css" },
     some { type := .uri, name := "t.css", location := "http://b/t.css" }]
    (by simp)

/-- C4 witness: a four-component shorthand is a parse error, through
the general characterization. -/
theorem c4_witness :
    ∃ msg, parsePageSize "1,2,3,4" = .error (.sizeParse msg) :=
  (c4_theorem.2.2.2 "1,2,3,4").mpr ⟨by decide, by decide⟩

/-- C5 witness: a one-entry manifest has that entry at reading-order
position zero. -/
theorem c5_witness :
    (generateManifest
      { modified := "m", entries := [{ path := "a.html" }], toc := none }
      ).readingOrder[0]? =
      some { href := "a.html", type := "text/html", title := none } := by
  have h := c5_theorem
    { modified := "m", entries := [{ path := "a.html" }], toc := none } 0 "/d" []
  rw [h.2.1]
  rfl

/-- C8 witness: with the TOC requested, the serialized `resources` key
holds exactly the `toc.html` contents link. -/
theorem c8_witness :
    lookupKey (manifestFields (generateManifest
      { modified := "m", entries := [], toc := some (.b true) })) "resources" =
      some (.arr [resourceJson tocResource]) := by
  have h := c8_theorem { modified := "m", entries := [], toc := some (.b true) }
  rw [h.1]
  rfl

end Vivlio
